import Mathlib

/-!
Shallow embedding of the twitter_clone backend's core data model and
operations (Sequelize models `Post`, `User`, `Comment`, `Follow`, `Like`
and the model-layer methods of `PostModel` and `UserModel`), together
with proofs of the claimed properties.

The relational store is modelled as lists of rows; each Sequelize call is
translated to the corresponding pure list operation:
  * `Model.findByPk id`            → `List.find?` on the id
  * `Model.findOne {where}`        → `List.find?` on the where-predicate
  * `Model.findAll {where}`        → `List.filter`
  * `Model.create row`             → append a fresh row (auto-increment id)
  * `instance.destroy()`           → `List.eraseP` (remove that one row)
  * `Model.destroy {where}`        → `List.filter` out all matching rows
  * `instance.increment/decrement` → update the row(s) with that id
  * `order: [[created_at, DESC]]`  → `List.mergeSort` on `created_at`
  * `limit`/`offset`               → `List.take` / `List.drop`
-/

/-- Error kinds thrown by the model layer (`throw new Error(...)` messages,
mapped to the spec's error kinds: `notFound` ↔ "Post not found" /
"Original post not found", `selfFollow` ↔ "Cannot follow yourself",
`alreadyFollowing` ↔ "Already following this user" (a ConflictError),
`notFollowing` ↔ "Not following this user" (a NotFoundError kind). -/
inductive DbError where
  | notFound
  | selfFollow
  | alreadyFollowing
  | notFollowing
  deriving DecidableEq, Repr

/-- A row of the `posts` table (src/unnamed/part_001, `Post` model).
`created_at` is the Sequelize timestamp, used for DESC ordering. -/
structure Post where
  id : Nat
  user_id : Nat
  content : String
  likes_count : Int
  retweets_count : Int
  comments_count : Int
  is_retweet : Bool
  original_post_id : Option Nat
  created_at : Nat
  deriving DecidableEq, Repr

/-- A row of the `likes` table: unique (user_id, post_id) pair. -/
structure LikeRow where
  user_id : Nat
  post_id : Nat
  deriving DecidableEq, Repr

/-- A row of the `follows` table: unique (follower_id, following_id) pair. -/
structure FollowRow where
  follower_id : Nat
  following_id : Nat
  deriving DecidableEq, Repr

/-- A row of the `comments` table. -/
structure CommentRow where
  id : Nat
  user_id : Nat
  post_id : Nat
  content : String
  parent_comment_id : Option Nat
  deriving DecidableEq, Repr

/-- A row of the `users` table (src/unnamed/part_001, `User` model).
Nullable columns are `Option`; a deleted JSON field is modelled as `none`. -/
structure UserRec where
  id : Nat
  username : String
  email : Option String
  password_hash : Option String
  wallet_address : Option String
  bio : String
  avatar_url : String
  cover_url : String
  location : String
  website : String
  deriving DecidableEq, Repr

/-- The relational store: one list per table, plus auto-increment counters
and a clock supplying `created_at` timestamps. -/
structure DB where
  users : List UserRec
  posts : List Post
  comments : List CommentRow
  likes : List LikeRow
  follows : List FollowRow
  nextUserId : Nat
  nextPostId : Nat
  nextCommentId : Nat
  now : Nat
  deriving Repr

namespace PostModel

/-- Result shape of `PostModel.like`. -/
structure LikeResult where
  liked : Bool
  like_count : Int
  deriving DecidableEq, Repr

/-- Embeds `PostModel.like(postId, userId)` (src/unnamed/part_000 lines 246-268):
`Post.findByPk`; if absent throw "Post not found"; else `Like.findOne` on
(user_id, post_id); if found, `destroy()` it, `decrement('likes_count')`
and return `{liked:false, like_count: post.likes_count - 1}` computed from
the pre-operation counter; else `Like.create`, `increment('likes_count')`
and return `{liked:true, like_count: post.likes_count + 1}`. -/
def like (db : DB) (postId userId : Nat) : Except DbError (DB × LikeResult) :=
  match db.posts.find? (fun p => p.id == postId) with
  | none => .error .notFound
  | some post =>
    match db.likes.find? (fun l => l.user_id == userId && l.post_id == postId) with
    | some _ =>
      let db' : DB := { db with
        likes := db.likes.eraseP (fun l => l.user_id == userId && l.post_id == postId),
        posts := db.posts.map (fun p =>
          if p.id == postId then { p with likes_count := p.likes_count - 1 } else p) }
      .ok (db', { liked := false, like_count := post.likes_count - 1 })
    | none =>
      let db' : DB := { db with
        likes := db.likes ++ [⟨userId, postId⟩],
        posts := db.posts.map (fun p =>
          if p.id == postId then { p with likes_count := p.likes_count + 1 } else p) }
      .ok (db', { liked := true, like_count := post.likes_count + 1 })

/-- Embeds `PostModel.retweet(userId, originalPostId, content = '')`
(src/unnamed/part_000 lines 19-41): `Post.findByPk(originalPostId)`; if
absent throw "Original post not found"; else `Post.create` a new row with
`is_retweet: true`, `original_post_id: originalPostId` and all three
counters 0, then `originalPost.increment('retweets_count')`.
Returns the new post's id (the code then re-fetches it via `findById`). -/
def retweet (db : DB) (userId originalPostId : Nat) (content : String := "") :
    Except DbError (DB × Nat) :=
  match db.posts.find? (fun p => p.id == originalPostId) with
  | none => .error .notFound
  | some _ =>
    let newPost : Post := {
      id := db.nextPostId,
      user_id := userId,
      content := content,
      likes_count := 0,
      retweets_count := 0,
      comments_count := 0,
      is_retweet := true,
      original_post_id := some originalPostId,
      created_at := db.now }
    let db' : DB := { db with
      posts := (db.posts ++ [newPost]).map (fun p =>
        if p.id == originalPostId then { p with retweets_count := p.retweets_count + 1 } else p),
      nextPostId := db.nextPostId + 1,
      now := db.now + 1 }
    .ok (db', newPost.id)

/-- Embeds `PostModel.addComment(userId, postId, content)` (src/unnamed/part_000
lines 44-69): `Post.findByPk`; if absent throw "Post not found"; else
`Comment.create({user_id, post_id, content})` — no `parent_comment_id` is
supplied, so the column keeps its default NULL — then
`post.increment('comments_count')`. Returns the created comment row. -/
def addComment (db : DB) (userId postId : Nat) (content : String) :
    Except DbError (DB × CommentRow) :=
  match db.posts.find? (fun p => p.id == postId) with
  | none => .error .notFound
  | some _ =>
    let c : CommentRow := {
      id := db.nextCommentId,
      user_id := userId,
      post_id := postId,
      content := content,
      parent_comment_id := none }
    let db' : DB := { db with
      comments := db.comments ++ [c],
      posts := db.posts.map (fun p =>
        if p.id == postId then { p with comments_count := p.comments_count + 1 } else p),
      nextCommentId := db.nextCommentId + 1 }
    .ok (db', c)

/-- One element of `PostModel.getComments`' result: a top-level comment
together with its `replies` include (comments whose `parent_comment_id`
references it). -/
structure CommentThread where
  comment : CommentRow
  replies : List CommentRow
  deriving DecidableEq, Repr

/-- Embeds `PostModel.getComments(postId, limit, offset)` (src/unnamed/part_000
lines 72-97): `Comment.findAll` where `post_id = postId` and
`parent_comment_id IS NULL`, including the `replies` association
(comments whose `parent_comment_id` is this comment's id), ordered by
`created_at DESC` (comment ids are auto-increment, so id order is
creation order), with limit/offset. -/
def getComments (db : DB) (postId : Nat) (limit : Nat := 20) (offset : Nat := 0) :
    List CommentThread :=
  let topLevel := db.comments.filter
    (fun c => c.post_id == postId && c.parent_comment_id == none)
  let sorted := topLevel.mergeSort (fun a b => b.id ≤ a.id)
  ((sorted.drop offset).take limit).map (fun c =>
    { comment := c,
      replies := db.comments.filter (fun r => r.parent_comment_id == some c.id) })

/-- Embeds `PostModel.getTimeline(userId, limit, offset)` (src/unnamed/part_000
lines 168-214): `Follow.findAll` where `follower_id = userId`, collect the
`following_id`s, push `userId` itself, then `Post.findAll` where
`user_id IN followingIds`, ordered `created_at DESC`, with limit/offset. -/
def getTimeline (db : DB) (userId : Nat) (limit : Nat := 20) (offset : Nat := 0) :
    List Post :=
  let followingIds :=
    ((db.follows.filter (fun f => f.follower_id == userId)).map
      (fun f => f.following_id)) ++ [userId]
  let matching := db.posts.filter (fun p => followingIds.contains p.user_id)
  let sorted := matching.mergeSort (fun a b => b.created_at ≤ a.created_at)
  (sorted.drop offset).take limit

/-- Characters matched by the regex `/['":&|!()]/g` in `PostModel.search`:
the characters meaningful to tsquery syntax that the code strips. -/
def tsquerySpecial (c : Char) : Bool :=
  c == '\x27' || c == '"' || c == ':' || c == '&' ||
  c == '|' || c == '!' || c == '(' || c == ')'

/-- Characters matched by the JavaScript regex class `\s` (restricted to
the ASCII whitespace characters; the queries in scope are ASCII). -/
def jsSpace (c : Char) : Bool :=
  c == ' ' || c == '\t' || c == '\n' || c == '\r' || c == '\x0b' || c == '\x0c'

/-- JavaScript `String.prototype.trim()`: remove leading and trailing
whitespace. -/
def jsTrim (s : List Char) : List Char :=
  ((s.dropWhile jsSpace).reverse.dropWhile jsSpace).reverse

/-- The first `.replace(/['":&|!()]/g, ' ')`: each special character
becomes a space. -/
def stripSpecials (s : List Char) : List Char :=
  s.map (fun c => if tsquerySpecial c then ' ' else c)

/-- The second `.replace(/\s+/g, ' & ')`: each maximal run of whitespace
becomes the three characters `space ampersand space`. `inRun` records
whether the previous character was part of a whitespace run already
replaced. -/
def collapseWsAux : Bool → List Char → List Char
  | _, [] => []
  | inRun, c :: rest =>
    if jsSpace c then
      if inRun then collapseWsAux true rest
      else ' ' :: '&' :: ' ' :: collapseWsAux true rest
    else c :: collapseWsAux false rest

/-- Embeds `query.trim().replace(/['":&|!()]/g, ' ').replace(/\s+/g, ' & ')`
(src/unnamed/part_000 lines 219-222): the `sanitizedQuery` value. -/
def sanitizedQuery (query : String) : String :=
  String.mk (collapseWsAux false (stripSpecials (jsTrim query.toList)))

/-- The string handed to `to_tsquery('pg_catalog.english', ...)`
(src/unnamed/part_000 line 228): the sanitized query with `:*` appended
to make the final token a prefix match. -/
def searchQueryString (query : String) : String :=
  sanitizedQuery query ++ ":*"

/-- A character that may appear in a tsquery lexeme within the image of
the sanitizer: not whitespace, not a tsquery operator character, not the
prefix-match star. -/
def validLexChar (c : Char) : Bool :=
  !(jsSpace c) && !(tsquerySpecial c) && c != '*'

/-- One operand of an `&`-joined tsquery: a non-empty lexeme, optionally
suffixed by `:*` (prefix match). `to_tsquery` raises a syntax error on an
empty operand — in particular on a bare `:*` or an empty string. -/
def validTerm (t : List Char) : Bool :=
  let base := match t.reverse with
    | '*' :: ':' :: r => r.reverse
    | _ => t
  !base.isEmpty && base.all validLexChar

/-- Split a character list on the exact three-character separator
`space ampersand space` that the sanitizer inserts (left-to-right,
non-overlapping — the semantics of splitting on that substring). -/
def splitAmp : List Char → List (List Char)
  | [] => [[]]
  | ' ' :: '&' :: ' ' :: rest => [] :: splitAmp rest
  | c :: rest =>
    match splitAmp rest with
    | [] => [[c]]
    | t :: ts => (c :: t) :: ts

/-- Well-formedness of the `&`-joined tsquery strings this code builds:
splitting on the separator the sanitizer inserts, every operand must be a
valid term. Postgres `to_tsquery` raises a syntax error when an operand
between `&`s is empty or is a bare `:*`. -/
def tsqueryWellFormed (s : String) : Bool :=
  (splitAmp s.toList).all validTerm

end PostModel

namespace UserModel

/-- Embeds `UserModel.toJSON` (src/server/models/User.js lines 158-163):
`delete userObj.password_hash` — the outward representation of a user
never carries the credential hash. A deleted field is modelled as `none`. -/
def toJSON (u : UserRec) : UserRec :=
  { u with password_hash := none }

/-- Embeds `UserModel.create` (User.js lines 7-18). `bcrypt.hash` is an external
library call, abstracted as the function argument `hash`; a falsy
password (absent or empty string) yields a NULL `password_hash`.
Returns the updated store and `toJSON` of the new row. -/
def create (hash : String → String) (db : DB) (username : String)
    (email : Option String) (password : Option String)
    (wallet_address : Option String) : DB × UserRec :=
  let u : UserRec := {
    id := db.nextUserId,
    username := username,
    email := email,
    password_hash := password.bind (fun p => if p == "" then none else some (hash p)),
    wallet_address := wallet_address,
    bio := "Hey there! I'm " ++ username,
    avatar_url := "https://ui-avatars.com/api/?name=" ++ username ++ "&background=random",
    cover_url := "",
    location := "",
    website := "" }
  ({ db with users := db.users ++ [u], nextUserId := db.nextUserId + 1 }, toJSON u)

/-- Embeds `UserModel.findByUsername` (User.js lines 21-24): `User.findOne` on
the username, passed through `toJSON`. -/
def findByUsername (db : DB) (username : String) : Option UserRec :=
  (db.users.find? (fun u => u.username == username)).map toJSON

/-- Embeds `UserModel.findById` (User.js lines 27-43), record part: `User.findByPk`
passed through `toJSON`. The `includeStats` counts are separate derived
reads, modelled by `followersCount` and `followingCount`. -/
def findById (db : DB) (id : Nat) : Option UserRec :=
  (db.users.find? (fun u => u.id == id)).map toJSON

/-- Embeds `Follow.count({where: {following_id: id}})` in `findById(includeStats)`. -/
def followersCount (db : DB) (id : Nat) : Nat :=
  (db.follows.filter (fun f => f.following_id == id)).length

/-- Embeds `Follow.count({where: {follower_id: id}})` in `findById(includeStats)`. -/
def followingCount (db : DB) (id : Nat) : Nat :=
  (db.follows.filter (fun f => f.follower_id == id)).length

/-- Embeds `UserModel.findByWallet` (User.js lines 46-49). -/
def findByWallet (db : DB) (wallet : String) : Option UserRec :=
  (db.users.find? (fun u => u.wallet_address == some wallet)).map toJSON

/-- The allow-listed profile fields of `UserModel.updateProfile`
(User.js line 58): `bio, avatar_url, cover_url, location, website`.
A `none` field is absent from the update payload. -/
structure ProfileUpdates where
  bio : Option String := none
  avatar_url : Option String := none
  cover_url : Option String := none
  location : Option String := none
  website : Option String := none
  deriving Repr

/-- Application of the filtered updates to one user row (`User.update`). -/
def applyUpdates (upd : ProfileUpdates) (u : UserRec) : UserRec :=
  { u with
    bio := upd.bio.getD u.bio,
    avatar_url := upd.avatar_url.getD u.avatar_url,
    cover_url := upd.cover_url.getD u.cover_url,
    location := upd.location.getD u.location,
    website := upd.website.getD u.website }

/-- Embeds `UserModel.updateProfile` (User.js lines 57-69): update the allow-listed
fields of the row with this id, then return `findById` (which funnels
through `toJSON`). -/
def updateProfile (db : DB) (userId : Nat) (upd : ProfileUpdates) :
    DB × Option UserRec :=
  let db' : DB := { db with
    users := db.users.map (fun u => if u.id == userId then applyUpdates upd u else u) }
  (db', findById db' userId)

/-- The `attributes: ['id', 'username', 'avatar_url', 'bio']` projection
used by `getFollowers`, `getFollowing` and `search`: the non-selected
columns are absent from the fetched instance. -/
def publicAttrs (u : UserRec) : UserRec :=
  { u with
    email := none,
    password_hash := none,
    wallet_address := none,
    cover_url := "",
    location := "",
    website := "" }

/-- Embeds `UserModel.getFollowers` (User.js lines 111-124): the users following
`userId`, projected to public attributes, each passed through `toJSON`;
`[]` when the user does not exist. -/
def getFollowers (db : DB) (userId : Nat) (limit : Nat := 20) (offset : Nat := 0) :
    List UserRec :=
  match db.users.find? (fun u => u.id == userId) with
  | none => []
  | some _ =>
    let ids := (db.follows.filter (fun f => f.following_id == userId)).map
      (fun f => f.follower_id)
    let fs := db.users.filter (fun u => ids.contains u.id)
    ((fs.drop offset).take limit).map (fun u => toJSON (publicAttrs u))

/-- Embeds `UserModel.getFollowing` (User.js lines 127-140): symmetric to
`getFollowers`. -/
def getFollowing (db : DB) (userId : Nat) (limit : Nat := 20) (offset : Nat := 0) :
    List UserRec :=
  match db.users.find? (fun u => u.id == userId) with
  | none => []
  | some _ =>
    let ids := (db.follows.filter (fun f => f.follower_id == userId)).map
      (fun f => f.following_id)
    let fs := db.users.filter (fun u => ids.contains u.id)
    ((fs.drop offset).take limit).map (fun u => toJSON (publicAttrs u))

/-- Embeds `UserModel.search` (User.js lines 143-155): `username ILIKE %query%`
(case-insensitive substring), public-attribute projection, `toJSON`. -/
def search (db : DB) (query : String) (limit : Nat := 20) (offset : Nat := 0) :
    List UserRec :=
  let ms := db.users.filter
    (fun u => decide (query.toLower.toList <:+: u.username.toLower.toList))
  ((ms.drop offset).take limit).map (fun u => toJSON (publicAttrs u))

/-- Embeds `UserModel.follow` (User.js lines 72-87): self-follow is an error;
`Follow.findOrCreate` on the (follower, following) pair; when the row
already existed (`created` false) throw "Already following this user",
else the new edge row is kept and success returned. -/
def follow (db : DB) (followerId followingId : Nat) : Except DbError DB :=
  if followerId == followingId then .error .selfFollow
  else
    match db.follows.find?
      (fun f => f.follower_id == followerId && f.following_id == followingId) with
    | some _ => .error .alreadyFollowing
    | none => .ok { db with follows := db.follows ++ [⟨followerId, followingId⟩] }

/-- Embeds `UserModel.unfollow` (User.js lines 90-100): `Follow.destroy` of all
rows matching the pair; zero rows affected is an error, not silent
success. -/
def unfollow (db : DB) (followerId followingId : Nat) : Except DbError DB :=
  let remaining := db.follows.filter
    (fun f => !(f.follower_id == followerId && f.following_id == followingId))
  if remaining.length == db.follows.length then .error .notFollowing
  else .ok { db with follows := remaining }

/-- Embeds `UserModel.isFollowing` (User.js lines 103-108). -/
def isFollowing (db : DB) (followerId followingId : Nat) : Bool :=
  (db.follows.find?
    (fun f => f.follower_id == followerId && f.following_id == followingId)).isSome

end UserModel

/-- Outcome of `POST /login` (src/unnamed/part_003 lines 85-127),
restricted to the three client-visible shapes. -/
inductive LoginResult where
  | missingFields
  | invalidCredentials
  | success (userId : Nat)
  deriving DecidableEq, Repr

/-- The `POST /login` route handler (src/unnamed/part_003 lines 85-103):
reject missing (falsy) username or password; fetch the user via
`UserModel.findByUsername`; reject when no user or no (falsy)
`password_hash`; otherwise compare via `UserModel.validatePassword`
(bcrypt, abstracted as the function argument `validatePassword`). -/
def loginRoute (validatePassword : String → String → Bool) (db : DB)
    (username password : String) : LoginResult :=
  if username == "" || password == "" then .missingFields
  else
    match UserModel.findByUsername db username with
    | none => .invalidCredentials
    | some user =>
      match user.password_hash with
      | none => .invalidCredentials
      | some h =>
        if h == "" then .invalidCredentials
        else if validatePassword password h then .success user.id
        else .invalidCredentials

/-! ## Helper lemmas -/

/-- Pushing `find?` through a `map` whose function leaves the tested predicate
unchanged (used for updates keyed on a row id, which never change the id). -/
theorem find?_map_pred {α : Type} (g : α → α) (p : α → Bool)
    (h : ∀ a, p (g a) = p a) (l : List α) :
    (l.map g).find? p = (l.find? p).map g := by
  rw [List.find?_map]
  have : p ∘ g = p := funext h
  rw [this]

/-- Erasing the first `q`-match from a list removes exactly one `r`-element
when every `q`-match is an `r`-match. -/
theorem length_filter_eraseP {α : Type} {q r : α → Bool} {l : List α} {a : α}
    (ha : a ∈ l) (hqa : q a) (himp : ∀ x, q x → r x) :
    ((l.eraseP q).filter r).length + 1 = (l.filter r).length := by
  obtain ⟨b, l₁, l₂, hnq, hqb, hl, he⟩ := List.exists_of_eraseP ha hqa
  subst hl
  rw [he, List.filter_append, List.filter_append, List.filter_cons,
    if_pos (himp b hqb)]
  simp [Nat.add_assoc, Nat.add_comm 1]

/-- Erasing the first `q`-match does not change an `r`-filter when no
`q`-match is an `r`-match. -/
theorem filter_eraseP_of_disjoint {α : Type} {q r : α → Bool} {l : List α} {a : α}
    (ha : a ∈ l) (hqa : q a) (hdis : ∀ x, q x → r x = false) :
    (l.eraseP q).filter r = l.filter r := by
  obtain ⟨b, l₁, l₂, hnq, hqb, hl, he⟩ := List.exists_of_eraseP ha hqa
  subst hl
  rw [he, List.filter_append, List.filter_append, List.filter_cons,
    if_neg (by simp [hdis b hqb])]

/-- A filter by the negation keeps the whole length exactly when nothing
matches. -/
theorem length_filter_not_eq_iff {α : Type} (q : α → Bool) (l : List α) :
    ((l.filter (fun x => !q x)).length = l.length) ↔ ∀ x ∈ l, ¬ q x = true := by
  constructor
  · intro hlen x hx hq
    have heq := (List.filter_sublist (l := l) (p := fun x => !q x)).eq_of_length hlen
    rw [← heq] at hx
    have := List.of_mem_filter hx
    simp [hq] at this
  · intro h
    have : l.filter (fun x => !q x) = l := by
      apply List.filter_eq_self.mpr
      intro a ha
      simp [h a ha]
    rw [this]

/-! ## Claim theorems -/

/-- C9: the password-login success branch is unreachable. For every
bcrypt comparison function, store and username/password pair, the login
route returns a missing-fields or invalid-credentials failure and never
`success`, because `UserModel.findByUsername` funnels its result through
`toJSON`, which deletes `password_hash` before the route inspects it. -/
theorem login_success_unreachable (vp : String → String → Bool) (db : DB)
    (username password : String) :
    loginRoute vp db username password = .missingFields ∨
    loginRoute vp db username password = .invalidCredentials := by
  unfold loginRoute
  by_cases h : (username == "" || password == "") = true
  · simp [h]
  · simp only [h, if_false, Bool.false_eq_true]
    unfold UserModel.findByUsername
    cases hf : db.users.find? (fun u => u.username == username) with
    | none => simp
    | some u => simp [UserModel.toJSON]

/-- C7 (code bug): the search sanitizer trims *before* stripping special
characters, so a query ending in a special character leaves a trailing
whitespace run that the second replace turns into a dangling ` & `; the
string handed to `to_tsquery` is then syntactically ill-formed (`abc & :*`
has an empty operand after `&`), so Postgres raises a syntax error and
`PostModel.search` throws instead of degrading to the sanitized tokens.
An ordinary query is fine, so the checker is not vacuous. -/
theorem search_sanitizer_trailing_special_ill_formed :
    PostModel.sanitizedQuery "abc:" = "abc & " ∧
    PostModel.searchQueryString "abc:" = "abc & :*" ∧
    PostModel.tsqueryWellFormed (PostModel.searchQueryString "abc:") = false ∧
    PostModel.tsqueryWellFormed (PostModel.searchQueryString "\"hello\"") = false ∧
    PostModel.sanitizedQuery "hello world" = "hello & world" ∧
    PostModel.tsqueryWellFormed (PostModel.searchQueryString "hello world") = true := by
  refine ⟨by decide, by decide, by decide, by decide, by decide, by decide⟩

/-- A follow edge from `a` to `b` exists in the store. -/
def followEdge (db : DB) (a b : Nat) : Prop :=
  ∃ f ∈ db.follows, f.follower_id = a ∧ f.following_id = b

/-- Number of follow-edge rows for the ordered pair `(a, b)`. -/
def followEdgeCount (db : DB) (a b : Nat) : Nat :=
  (db.follows.filter (fun f => f.follower_id == a && f.following_id == b)).length

/-- C5: the follow-edge error contract. `follow(a,a)` fails with the
self-follow error; `follow(a,b)` on an existing edge fails with the
already-following conflict and returns no store (no duplicate edge);
`follow(a,b)` with no existing edge creates exactly one `(a,b)` edge and
changes no other pair's edges; `unfollow(a,b)` with no edge fails with the
not-following error (zero rows affected is an error, not silent success);
`unfollow(a,b)` with an edge removes it without touching other pairs. -/
theorem follow_unfollow_contract (db : DB) (a b : Nat) :
    (UserModel.follow db a a = .error .selfFollow) ∧
    (a ≠ b → followEdge db a b → UserModel.follow db a b = .error .alreadyFollowing) ∧
    (a ≠ b → ¬ followEdge db a b →
      ∃ db', UserModel.follow db a b = .ok db' ∧
        followEdgeCount db' a b = 1 ∧
        (∀ x y, ¬(x = a ∧ y = b) → followEdgeCount db' x y = followEdgeCount db x y)) ∧
    (¬ followEdge db a b → UserModel.unfollow db a b = .error .notFollowing) ∧
    (followEdge db a b →
      ∃ db', UserModel.unfollow db a b = .ok db' ∧ ¬ followEdge db' a b ∧
        (∀ x y, ¬(x = a ∧ y = b) → followEdgeCount db' x y = followEdgeCount db x y)) := by
  refine ⟨?_, ?_, ?_, ?_, ?_⟩
  · simp [UserModel.follow]
  · intro hab hedge
    obtain ⟨f, hf, h1, h2⟩ := hedge
    unfold UserModel.follow
    rw [if_neg (by simp [hab])]
    cases hfind : db.follows.find?
        (fun f => f.follower_id == a && f.following_id == b) with
    | none =>
      exact absurd (List.find?_eq_none.mp hfind f hf) (by simp [h1, h2])
    | some _ => rfl
  · intro hab hedge
    have hnone : db.follows.find?
        (fun f => f.follower_id == a && f.following_id == b) = none := by
      apply List.find?_eq_none.mpr
      intro f hf hq
      exact hedge ⟨f, hf, by simpa using hq⟩
    refine ⟨{ db with follows := db.follows ++ [⟨a, b⟩] }, ?_, ?_, ?_⟩
    · unfold UserModel.follow
      rw [if_neg (by simp [hab]), hnone]
    · unfold followEdgeCount
      simp only [List.filter_append]
      have h0 : db.follows.filter
          (fun f => f.follower_id == a && f.following_id == b) = [] := by
        apply List.filter_eq_nil_iff.mpr
        intro f hf hq
        exact hedge ⟨f, hf, by simpa using hq⟩
      rw [h0]
      simp
    · intro x y hxy
      unfold followEdgeCount
      simp only [List.filter_append]
      have : (([⟨a, b⟩] : List FollowRow).filter
          (fun f => f.follower_id == x && f.following_id == y)) = [] := by
        simp only [List.filter_eq_nil_iff]
        intro f hf hq
        simp only [List.mem_singleton] at hf
        subst hf
        simp only [Bool.and_eq_true, beq_iff_eq] at hq
        exact hxy ⟨hq.1.symm, hq.2.symm⟩
      rw [this]
      simp
  · intro hedge
    unfold UserModel.unfollow
    have hall : ∀ f ∈ db.follows,
        ¬ (f.follower_id == a && f.following_id == b) = true := by
      intro f hf hq
      exact hedge ⟨f, hf, by simpa using hq⟩
    have heq : db.follows.filter
        (fun f => !(f.follower_id == a && f.following_id == b)) = db.follows := by
      apply List.filter_eq_self.mpr
      intro f hf
      simp [hall f hf]
    simp only [heq]
    simp only [beq_self_eq_true, if_true]
  · intro hedge
    obtain ⟨f0, hf0, h1, h2⟩ := hedge
    have hne : ((db.follows.filter
        (fun f => !(f.follower_id == a && f.following_id == b))).length ==
        db.follows.length) = false := by
      apply beq_eq_false_iff_ne.mpr
      intro hlen
      have := (length_filter_not_eq_iff
        (fun f => f.follower_id == a && f.following_id == b) db.follows).mp hlen f0 hf0
      simp [h1, h2] at this
    refine ⟨{ db with
        follows := db.follows.filter (fun f => !(f.follower_id == a && f.following_id == b)) },
      ?_, ?_, ?_⟩
    · unfold UserModel.unfollow
      simp only [hne, Bool.false_eq_true, if_false]
    · rintro ⟨f, hf, hx1, hx2⟩
      have := List.of_mem_filter hf
      simp [hx1, hx2] at this
    · intro x y hxy
      unfold followEdgeCount
      simp only
      rw [List.filter_filter]
      apply congrArg
      apply List.filter_congr
      intro f hf
      by_cases hp : (f.follower_id == x && f.following_id == y) = true
      · simp only [Bool.and_eq_true, beq_iff_eq] at hp
        have hq : (f.follower_id == a && f.following_id == b) = false := by
          by_contra hc
          simp only [Bool.not_eq_false, Bool.and_eq_true, beq_iff_eq] at hc
          exact hxy ⟨hp.1 ▸ hc.1.symm ▸ rfl, hp.2 ▸ hc.2.symm ▸ rfl⟩
        simp only [hp.1, hp.2] at hq ⊢
        simp [hq]
      · simp only [Bool.not_eq_true] at hp
        simp [hp]

/-- The outward-facing representation `u` carries no credential hash. -/
def noHash (u : UserRec) : Prop := u.password_hash = none

/-- C8: credential-hash confidentiality. Every outward-facing user
representation produced by the Identity Store — `create`,
`findByUsername`, `findById`, `findByWallet`, `updateProfile`,
`getFollowers`, `getFollowing`, `search`, all funneled through
`UserModel.toJSON` — contains no `password_hash` field, whatever the
stored rows hold. -/
theorem outward_no_password_hash (hash : String → String) (db : DB)
    (username wallet query : String) (email pw wal : Option String)
    (id limit offset : Nat) (upd : UserModel.ProfileUpdates) :
    noHash (UserModel.create hash db username email pw wal).2 ∧
    (∀ u, UserModel.findByUsername db username = some u → noHash u) ∧
    (∀ u, UserModel.findById db id = some u → noHash u) ∧
    (∀ u, UserModel.findByWallet db wallet = some u → noHash u) ∧
    (∀ u, (UserModel.updateProfile db id upd).2 = some u → noHash u) ∧
    (∀ u ∈ UserModel.getFollowers db id limit offset, noHash u) ∧
    (∀ u ∈ UserModel.getFollowing db id limit offset, noHash u) ∧
    (∀ u ∈ UserModel.search db query limit offset, noHash u) := by
  refine ⟨?_, ?_, ?_, ?_, ?_, ?_, ?_, ?_⟩
  · simp [UserModel.create, UserModel.toJSON, noHash]
  · intro u hu
    unfold UserModel.findByUsername at hu
    obtain ⟨v, _, hv⟩ := Option.map_eq_some'.mp hu
    simp [← hv, UserModel.toJSON, noHash]
  · intro u hu
    unfold UserModel.findById at hu
    obtain ⟨v, _, hv⟩ := Option.map_eq_some'.mp hu
    simp [← hv, UserModel.toJSON, noHash]
  · intro u hu
    unfold UserModel.findByWallet at hu
    obtain ⟨v, _, hv⟩ := Option.map_eq_some'.mp hu
    simp [← hv, UserModel.toJSON, noHash]
  · intro u hu
    unfold UserModel.updateProfile UserModel.findById at hu
    simp only at hu
    obtain ⟨v, _, hv⟩ := Option.map_eq_some'.mp hu
    simp [← hv, UserModel.toJSON, noHash]
  · intro u hu
    unfold UserModel.getFollowers at hu
    cases hfind : db.users.find? (fun v => v.id == id) with
    | none => rw [hfind] at hu; simp at hu
    | some w =>
      rw [hfind] at hu
      simp only [List.mem_map] at hu
      obtain ⟨v, _, hv⟩ := hu
      simp [← hv, UserModel.toJSON, noHash]
  · intro u hu
    unfold UserModel.getFollowing at hu
    cases hfind : db.users.find? (fun v => v.id == id) with
    | none => rw [hfind] at hu; simp at hu
    | some w =>
      rw [hfind] at hu
      simp only [List.mem_map] at hu
      obtain ⟨v, _, hv⟩ := hu
      simp [← hv, UserModel.toJSON, noHash]
  · intro u hu
    unfold UserModel.search at hu
    simp only [List.mem_map] at hu
    obtain ⟨v, _, hv⟩ := hu
    simp [← hv, UserModel.toJSON, noHash]

/-- A concrete store with one user whose row carries a credential hash:
the witness below checks the hash is still absent from every output. -/
def hashedUser : UserRec :=
  { id := 1, username := "alice", email := some "a@x.io",
    password_hash := some "bcrypt-digest", wallet_address := none,
    bio := "", avatar_url := "", cover_url := "", location := "", website := "" }

/-- A one-user store for witnesses. -/
def dbOneUser : DB :=
  { users := [hashedUser], posts := [], comments := [], likes := [],
    follows := [], nextUserId := 2, nextPostId := 1, nextCommentId := 1, now := 0 }

theorem outward_no_password_hash_witness :
    noHash (UserModel.create (fun s => s) dbOneUser "bob" none (some "pw") none).2 ∧
    noHash (UserModel.toJSON hashedUser) := by
  constructor
  · exact (outward_no_password_hash (fun s => s) dbOneUser "bob" "" ""
      none (some "pw") none 1 20 0 {}).1
  · exact (outward_no_password_hash (fun s => s) dbOneUser "alice" "" ""
      none (some "pw") none 1 20 0 {}).2.1 (UserModel.toJSON hashedUser) rfl

/-- Shape of a successful `addComment`: the store gains exactly the one
created row, and that row's `parent_comment_id` is NULL (the public
interface provides no way to set it). -/
theorem addComment_ok_shape {db db' : DB} {u p : Nat} {ct : String} {c : CommentRow}
    (h : PostModel.addComment db u p ct = .ok (db', c)) :
    db'.comments = db.comments ++ [c] ∧ c.parent_comment_id = none := by
  unfold PostModel.addComment at h
  cases hf : db.posts.find? (fun q => q.id == p) with
  | none => rw [hf] at h; exact absurd h (by simp)
  | some post =>
    rw [hf] at h
    simp only [Except.ok.injEq, Prod.mk.injEq] at h
    obtain ⟨h1, h2⟩ := h
    subst h1
    rw [← h2]
    exact ⟨rfl, rfl⟩

/-- Apply one `addComment` call, keeping the old store on error. -/
def applyAddComment (db : DB) (op : Nat × Nat × String) : DB :=
  match PostModel.addComment db op.1 op.2.1 op.2.2 with
  | .ok (db', _) => db'
  | .error _ => db

/-- A store in which every comment row is top-level (NULL parent). -/
def allTopLevel (db : DB) : Prop :=
  ∀ c ∈ db.comments, c.parent_comment_id = none

/-- C10: every comment created through the public interface is top-level.
After any sequence of `addComment` operations from a store whose comments
all have a NULL parent, every comment row still has a NULL parent, and
every thread returned by `getComments` carries an empty `replies` list —
the one-level reply structure of the data model is never populated. -/
theorem comments_always_top_level (db : DB) (ops : List (Nat × Nat × String))
    (h : allTopLevel db) :
    allTopLevel (ops.foldl applyAddComment db) ∧
    ∀ postId limit offset,
      ∀ t ∈ PostModel.getComments (ops.foldl applyAddComment db) postId limit offset,
        t.replies = [] := by
  have step : ∀ d op, allTopLevel d → allTopLevel (applyAddComment d op) := by
    intro d op hd
    unfold applyAddComment
    cases hc : PostModel.addComment d op.1 op.2.1 op.2.2 with
    | error e => exact hd
    | ok res =>
      obtain ⟨db', c⟩ := res
      obtain ⟨hcm, hpar⟩ := addComment_ok_shape hc
      intro x hx
      rw [hcm] at hx
      rcases List.mem_append.mp hx with h2 | h2
      · exact hd x h2
      · rw [List.mem_singleton] at h2; subst h2; exact hpar
  have hall : ∀ (l : List (Nat × Nat × String)) (d : DB), allTopLevel d →
      allTopLevel (l.foldl applyAddComment d) := by
    intro l
    induction l with
    | nil => intro d hd; exact hd
    | cons op rest ih => intro d hd; exact ih _ (step d op hd)
  refine ⟨hall ops db h, ?_⟩
  intro postId limit offset t ht
  unfold PostModel.getComments at ht
  simp only [List.mem_map] at ht
  obtain ⟨c, _, hc⟩ := ht
  rw [← hc]
  simp only
  apply List.filter_eq_nil_iff.mpr
  intro r hr
  rw [hall ops db h r hr]
  simp

/-- An original post and a one-post store, used by concrete witnesses. -/
def post1 : Post :=
  { id := 1, user_id := 1, content := "hello", likes_count := 0,
    retweets_count := 0, comments_count := 0, is_retweet := false,
    original_post_id := none, created_at := 0 }

/-- A store holding only `post1`, used by concrete witnesses. -/
def dbOnePost : DB :=
  { users := [], posts := [post1], comments := [], likes := [],
    follows := [], nextUserId := 1, nextPostId := 2, nextCommentId := 1, now := 1 }

theorem comments_always_top_level_witness :
    allTopLevel dbOnePost ∧
    allTopLevel ([((1 : Nat), (1 : Nat), "hi")].foldl applyAddComment dbOnePost) := by
  have h0 : allTopLevel dbOnePost := by
    intro c hc
    simp [dbOnePost] at hc
  exact ⟨h0, (comments_always_top_level dbOnePost [((1 : Nat), (1 : Nat), "hi")] h0).1⟩

/-- C4: the retweet contract. When the original post id matches no row,
`retweet` fails with the not-found error (and, returning no store, creates
no new post row). When a row with the original id exists, the operation
returns a store holding one additional post row whose `is_retweet` is
true, whose `original_post_id` points at the original, whose three
counters are all zero and whose id is fresh, and the original row's
`retweets_count` is incremented by exactly one. The freshness hypothesis
is the auto-increment invariant: every stored id is below the next id. -/
theorem retweet_contract (db : DB) (userId origId : Nat) (content : String)
    (hfresh : ∀ p ∈ db.posts, p.id < db.nextPostId) :
    ((∀ p ∈ db.posts, p.id ≠ origId) →
      PostModel.retweet db userId origId content = .error .notFound) ∧
    (∀ post, db.posts.find? (fun p => p.id == origId) = some post →
      ∃ db', PostModel.retweet db userId origId content = .ok (db', db.nextPostId) ∧
        ∃ newPost ∈ db'.posts,
          newPost.id = db.nextPostId ∧
          newPost.user_id = userId ∧
          newPost.is_retweet = true ∧
          newPost.original_post_id = some origId ∧
          newPost.likes_count = 0 ∧
          newPost.retweets_count = 0 ∧
          newPost.comments_count = 0 ∧
          (∀ p ∈ db.posts, p.id ≠ newPost.id) ∧
          db'.posts.find? (fun p => p.id == origId) =
            some { post with retweets_count := post.retweets_count + 1 } ∧
          db'.posts.length = db.posts.length + 1) := by
  constructor
  · intro hnone
    have hf : db.posts.find? (fun p => p.id == origId) = none := by
      apply List.find?_eq_none.mpr
      intro p hp
      simpa using hnone p hp
    unfold PostModel.retweet
    rw [hf]
  · intro post hpost
    have hmem := List.mem_of_find?_eq_some hpost
    have hpid : post.id = origId := by simpa using List.find?_some hpost
    have horig_lt : origId < db.nextPostId := hpid ▸ hfresh post hmem
    set newPost : Post := {
      id := db.nextPostId,
      user_id := userId,
      content := content,
      likes_count := 0,
      retweets_count := 0,
      comments_count := 0,
      is_retweet := true,
      original_post_id := some origId,
      created_at := db.now } with hnew
    set g : Post → Post := fun p =>
      if p.id == origId then { p with retweets_count := p.retweets_count + 1 } else p with hg
    have hgid : ∀ p : Post, (g p).id = p.id := by
      intro p
      simp only [hg]
      split <;> rfl
    have hnid : (newPost.id == origId) = false := by
      rw [hnew]
      simp only [beq_eq_false_iff_ne, ne_eq]
      omega
    have hgnew : g newPost = newPost := by
      simp only [hg, hnid]
      simp
    refine ⟨{ db with
        posts := (db.posts ++ [newPost]).map g,
        nextPostId := db.nextPostId + 1,
        now := db.now + 1 }, ?_, ?_⟩
    · unfold PostModel.retweet
      rw [hpost]
    · refine ⟨newPost, ?_, rfl, rfl, rfl, rfl, rfl, rfl, rfl, ?_, ?_, ?_⟩
      · show newPost ∈ ((db.posts ++ [newPost]).map g)
        have hmm : g newPost ∈ ((db.posts ++ [newPost]).map g) :=
          List.mem_map_of_mem g (List.mem_append_right _ (List.mem_singleton_self _))
        rw [hgnew] at hmm
        exact hmm
      · intro p hp hne
        have := hfresh p hp
        rw [hne] at this
        simp [hnew] at this
      · show ((db.posts ++ [newPost]).map g).find? (fun p => p.id == origId) = _
        rw [List.map_append, List.find?_append, find?_map_pred g _ (fun p => by rw [hgid]),
          hpost]
        simp [hgnew, hnid, hpid, hg]
      · show ((db.posts ++ [newPost]).map g).length = db.posts.length + 1
        simp

theorem retweet_contract_witness :
    dbOnePost.posts.find? (fun p => p.id == 1) = some post1 ∧
    (∃ db', PostModel.retweet dbOnePost 2 1 "hi" = .ok (db', dbOnePost.nextPostId) ∧
      ∃ newPost ∈ db'.posts,
        newPost.id = dbOnePost.nextPostId ∧
        newPost.user_id = 2 ∧
        newPost.is_retweet = true ∧
        newPost.original_post_id = some 1 ∧
        newPost.likes_count = 0 ∧
        newPost.retweets_count = 0 ∧
        newPost.comments_count = 0 ∧
        (∀ p ∈ dbOnePost.posts, p.id ≠ newPost.id) ∧
        db'.posts.find? (fun p => p.id == 1) =
          some { post1 with retweets_count := post1.retweets_count + 1 } ∧
        db'.posts.length = dbOnePost.posts.length + 1) :=
  ⟨rfl, (retweet_contract dbOnePost 2 1 "hi" (by decide)).2 post1 rfl⟩

theorem follow_unfollow_contract_witness :
    UserModel.follow dbOnePost 1 1 = .error .selfFollow ∧
    (∃ db', UserModel.follow dbOnePost 1 2 = .ok db' ∧
      followEdgeCount db' 1 2 = 1 ∧
      (∀ x y, ¬(x = 1 ∧ y = 2) → followEdgeCount db' x y = followEdgeCount dbOnePost x y)) :=
  ⟨(follow_unfollow_contract dbOnePost 1 1).1,
   (follow_unfollow_contract dbOnePost 1 2).2.2.1 (by decide)
     (by rintro ⟨f, hf, h1, h2⟩; simp [dbOnePost] at hf)⟩

/-- Apply one like-toggle, keeping the old store when the operation throws
(a thrown error leaves the store untouched). -/
def applyToggle (db : DB) (op : Nat × Nat) : DB :=
  match PostModel.like db op.1 op.2 with
  | .ok (db', _) => db'
  | .error _ => db

/-- The counter-consistency invariant: every post's stored `likes_count`
equals the number of Like rows referencing it. -/
def likesConsistent (db : DB) : Prop :=
  ∀ p ∈ db.posts,
    p.likes_count = ((db.likes.filter (fun l => l.post_id == p.id)).length : Int)

/-- One like-toggle preserves counter consistency: the row insert/delete
and the counter increment/decrement never disagree. -/
theorem likesConsistent_applyToggle (db : DB) (op : Nat × Nat)
    (h : likesConsistent db) : likesConsistent (applyToggle db op) := by
  unfold applyToggle
  cases hres : PostModel.like db op.1 op.2 with
  | error e => exact h
  | ok res =>
    obtain ⟨dbn, r⟩ := res
    unfold PostModel.like at hres
    cases hpost : db.posts.find? (fun p => p.id == op.1) with
    | none => rw [hpost] at hres; exact absurd hres (by simp)
    | some post =>
      rw [hpost] at hres
      cases hlike : db.likes.find? (fun l => l.user_id == op.2 && l.post_id == op.1) with
      | some l0 =>
        rw [hlike] at hres
        simp only [Except.ok.injEq, Prod.mk.injEq] at hres
        obtain ⟨hdb, -⟩ := hres
        subst hdb
        intro p hp
        simp only [List.mem_map] at hp
        obtain ⟨p0, hp0, hpe⟩ := hp
        subst hpe
        have hl0mem := List.mem_of_find?_eq_some hlike
        have hl0q := List.find?_some hlike
        have hcons := h p0 hp0
        by_cases hc : (p0.id == op.1) = true
        · have hpeq : p0.id = op.1 := by simpa using hc
          have him : ∀ x : LikeRow, (x.user_id == op.2 && x.post_id == op.1) = true →
              (x.post_id == p0.id) = true := by
            intro x hx
            simp only [Bool.and_eq_true, beq_iff_eq] at hx
            simp [hx.2, hpeq]
          have hcount := length_filter_eraseP hl0mem hl0q him
          simp only [hc, if_true]
          show p0.likes_count - 1 =
            (((db.likes.eraseP (fun l => l.user_id == op.2 && l.post_id == op.1)).filter
              (fun l => l.post_id == p0.id)).length : Int)
          omega
        · have hdis : ∀ x : LikeRow, (x.user_id == op.2 && x.post_id == op.1) = true →
              (x.post_id == p0.id) = false := by
            intro x hx
            simp only [Bool.and_eq_true, beq_iff_eq] at hx
            simp only [beq_eq_false_iff_ne, ne_eq, hx.2]
            intro hxe
            exact hc (by simp [hxe])
          have hsame := filter_eraseP_of_disjoint hl0mem hl0q hdis
          have hcFalse : (p0.id == op.1) = false := by simpa using hc
          simp only [hcFalse, Bool.false_eq_true, if_false]
          show p0.likes_count =
            (((db.likes.eraseP (fun l => l.user_id == op.2 && l.post_id == op.1)).filter
              (fun l => l.post_id == p0.id)).length : Int)
          rw [hsame]
          exact hcons
      | none =>
        rw [hlike] at hres
        simp only [Except.ok.injEq, Prod.mk.injEq] at hres
        obtain ⟨hdb, -⟩ := hres
        subst hdb
        intro p hp
        simp only [List.mem_map] at hp
        obtain ⟨p0, hp0, hpe⟩ := hp
        subst hpe
        have hcons := h p0 hp0
        by_cases hc : (p0.id == op.1) = true
        · have hpeq : p0.id = op.1 := by simpa using hc
          simp only [hc, if_true]
          show p0.likes_count + 1 =
            (((db.likes ++ [(⟨op.2, op.1⟩ : LikeRow)]).filter (fun l => l.post_id == p0.id)).length : Int)
          rw [List.filter_append]
          have hrow : (([⟨op.2, op.1⟩] : List LikeRow).filter
              (fun l => l.post_id == p0.id)).length = 1 := by
            simp [hpeq]
          rw [List.length_append, hrow]
          omega
        · have hcFalse : (p0.id == op.1) = false := by simpa using hc
          simp only [hcFalse, Bool.false_eq_true, if_false]
          show p0.likes_count =
            (((db.likes ++ [(⟨op.2, op.1⟩ : LikeRow)]).filter (fun l => l.post_id == p0.id)).length : Int)
          rw [List.filter_append]
          have hne : p0.id ≠ op.1 := by simpa using hc
          have hrow : (([⟨op.2, op.1⟩] : List LikeRow).filter
              (fun l => l.post_id == p0.id)).length = 0 := by
            have hx : ((⟨op.2, op.1⟩ : LikeRow).post_id == p0.id) = false := by
              simp only [beq_eq_false_iff_ne, ne_eq]
              exact fun he => hne he.symm
            simp [List.filter, hx]
          rw [List.length_append, hrow]
          simpa using hcons

/-- C2: counter-consistency invariant. Starting from any consistent store
(every post's `likes_count` equal to the number of its Like rows), after
any sequence of like-toggle operations the store is still consistent:
the row insert/delete and the counter update never disagree. -/
theorem likes_counter_consistency (db : DB) (ops : List (Nat × Nat))
    (h : likesConsistent db) : likesConsistent (ops.foldl applyToggle db) := by
  induction ops generalizing db with
  | nil => exact h
  | cons op rest ih => exact ih _ (likesConsistent_applyToggle db op h)

theorem likes_counter_consistency_witness :
    likesConsistent dbOnePost ∧
    likesConsistent ([(1, 7), (1, 7), (2, 3), (1, 4)].foldl applyToggle dbOnePost) := by
  have h0 : likesConsistent dbOnePost := by
    intro p hp
    simp only [dbOnePost, List.mem_singleton] at hp
    subst hp
    rfl
  exact ⟨h0, likes_counter_consistency dbOnePost [(1, 7), (1, 7), (2, 3), (1, 4)] h0⟩

/-- A Like row for the (user, post) pair exists in the store. -/
def likeExists (db : DB) (userId postId : Nat) : Prop :=
  ∃ l ∈ db.likes, l.user_id = userId ∧ l.post_id = postId

/-- The `Like.findOne` predicate matches exactly the row equal to the
(user, post) pair — a Like row carries nothing but the pair. -/
theorem likeQ_iff (userId postId : Nat) (l : LikeRow) :
    ((l.user_id == userId && l.post_id == postId) = true) ↔ l = ⟨userId, postId⟩ := by
  constructor
  · intro h
    simp only [Bool.and_eq_true, beq_iff_eq] at h
    cases l
    simp only [LikeRow.mk.injEq]
    exact h
  · intro h
    subst h
    simp

/-- Mapping an update and then its pointwise inverse restores a list. -/
theorem map_map_cancel {α : Type} (l : List α) (f g : α → α) (h : ∀ a ∈ l, g (f a) = a) :
    (l.map f).map g = l := by
  rw [List.map_map]
  have h2 : ∀ a ∈ l, (g ∘ f) a = id a := fun a ha => h a ha
  rw [List.map_congr_left h2, List.map_id]

/-- Equation for `PostModel.like` in the no-existing-row branch. -/
theorem like_insert_eq (db : DB) (postId userId : Nat) (post : Post)
    (hpost : db.posts.find? (fun p => p.id == postId) = some post)
    (hlike : db.likes.find? (fun l => l.user_id == userId && l.post_id == postId) = none) :
    PostModel.like db postId userId = .ok ({ db with
        likes := db.likes ++ [(⟨userId, postId⟩ : LikeRow)],
        posts := db.posts.map (fun p =>
          if p.id == postId then { p with likes_count := p.likes_count + 1 } else p) },
      { liked := true, like_count := post.likes_count + 1 }) := by
  unfold PostModel.like
  rw [hpost, hlike]

/-- Equation for `PostModel.like` in the existing-row branch. -/
theorem like_delete_eq (db : DB) (postId userId : Nat) (post : Post) (l0 : LikeRow)
    (hpost : db.posts.find? (fun p => p.id == postId) = some post)
    (hlike : db.likes.find? (fun l => l.user_id == userId && l.post_id == postId) = some l0) :
    PostModel.like db postId userId = .ok ({ db with
        likes := db.likes.eraseP (fun l => l.user_id == userId && l.post_id == postId),
        posts := db.posts.map (fun p =>
          if p.id == postId then { p with likes_count := p.likes_count - 1 } else p) },
      { liked := false, like_count := post.likes_count - 1 }) := by
  unfold PostModel.like
  rw [hpost, hlike]

/-- C3: the toggle is an involution. For every store whose Like rows
respect the store's unique (user_id, post_id) index (`Nodup`, since a
Like row is exactly that pair) and every post that exists, toggling the
same (user, post) twice succeeds both times and returns the store to the
original state: the posts table (hence every stored `likes_count`) is
restored exactly, and a Like row exists for a pair afterwards iff it
existed before. -/
theorem like_involution (db : DB) (postId userId : Nat)
    (hu : db.likes.Nodup)
    (post : Post) (hpost : db.posts.find? (fun p => p.id == postId) = some post) :
    ∃ db1 r1 db2 r2,
      PostModel.like db postId userId = .ok (db1, r1) ∧
      PostModel.like db1 postId userId = .ok (db2, r2) ∧
      db2.posts = db.posts ∧
      (∀ u p, likeExists db2 u p ↔ likeExists db u p) := by
  have hpid := List.find?_some hpost
  have hpredDec : ∀ a : Post,
      (((if a.id == postId then { a with likes_count := a.likes_count - 1 } else a).id == postId))
      = (a.id == postId) := by
    intro a
    by_cases hc : (a.id == postId) = true <;> simp [hc]
  have hpredInc : ∀ a : Post,
      (((if a.id == postId then { a with likes_count := a.likes_count + 1 } else a).id == postId))
      = (a.id == postId) := by
    intro a
    by_cases hc : (a.id == postId) = true <;> simp [hc]
  cases hlike : db.likes.find? (fun l => l.user_id == userId && l.post_id == postId) with
  | none =>
    -- first call inserts, second call deletes the inserted row
    have e1 := like_insert_eq db postId userId post hpost hlike
    have hfind2 : ((db.posts.map (fun p =>
        if p.id == postId then { p with likes_count := p.likes_count + 1 } else p)).find?
        (fun p => p.id == postId))
        = some { post with likes_count := post.likes_count + 1 } := by
      rw [find?_map_pred _ _ hpredInc, hpost]
      simp only [Option.map]
      rw [hpid]
      simp
    have hlike2 : ((db.likes ++ [(⟨userId, postId⟩ : LikeRow)]).find?
        (fun l => l.user_id == userId && l.post_id == postId)) = some ⟨userId, postId⟩ := by
      rw [List.find?_append, hlike]
      simp
    have e2 := like_delete_eq { db with
        likes := db.likes ++ [(⟨userId, postId⟩ : LikeRow)],
        posts := db.posts.map (fun p =>
          if p.id == postId then { p with likes_count := p.likes_count + 1 } else p) }
      postId userId { post with likes_count := post.likes_count + 1 } ⟨userId, postId⟩
      hfind2 hlike2
    refine ⟨_, _, _, _, e1, e2, ?_, ?_⟩
    · show ((db.posts.map _).map _) = db.posts
      apply map_map_cancel
      intro a _
      by_cases hc : (a.id == postId) = true
      · simp only [hc, if_true]
        cases a
        simp only [Post.mk.injEq, and_true, true_and]
        omega
      · simp only [hc, Bool.false_eq_true, if_false]
    · have hnoq := List.find?_eq_none.mp hlike
      have hrowq : ((⟨userId, postId⟩ : LikeRow).user_id == userId &&
          (⟨userId, postId⟩ : LikeRow).post_id == postId) = true := by simp
      have herase : (db.likes ++ [(⟨userId, postId⟩ : LikeRow)]).eraseP
          (fun l => l.user_id == userId && l.post_id == postId) = db.likes := by
        rw [List.eraseP_append_right _ hnoq]
        simp [List.eraseP_cons, hrowq]
      intro u p
      unfold likeExists
      constructor
      · rintro ⟨l, hl, hprop⟩
        rw [show ∀ x : LikeRow, (x ∈ ((db.likes ++ [(⟨userId, postId⟩ : LikeRow)]).eraseP
            (fun l => l.user_id == userId && l.post_id == postId))) = (x ∈ db.likes) from
          fun x => by rw [herase]] at hl
        exact ⟨l, hl, hprop⟩
      · rintro ⟨l, hl, hprop⟩
        refine ⟨l, ?_, hprop⟩
        show l ∈ (db.likes ++ [(⟨userId, postId⟩ : LikeRow)]).eraseP
          (fun l => l.user_id == userId && l.post_id == postId)
        rw [herase]
        exact hl
  | some l0 =>
    -- first call deletes the unique matching row, second call re-inserts it
    have hl0mem := List.mem_of_find?_eq_some hlike
    have hl0q := List.find?_some hlike
    obtain ⟨b, l₁, l₂, hnq1, hqb, hsplit, herase⟩ :=
      List.exists_of_eraseP (p := fun l => l.user_id == userId && l.post_id == postId)
        hl0mem hl0q
    have hbeq : b = ⟨userId, postId⟩ := (likeQ_iff userId postId b).mp hqb
    have hnotl2 : b ∉ l₂ := by
      rw [hsplit] at hu
      have h2 := (List.nodup_append.mp hu).2.1
      exact (List.nodup_cons.mp h2).1
    have hnone2 : ((db.likes.eraseP
        (fun l => l.user_id == userId && l.post_id == postId)).find?
        (fun l => l.user_id == userId && l.post_id == postId)) = none := by
      rw [herase]
      apply List.find?_eq_none.mpr
      intro x hx hqx
      have hxeq : x = ⟨userId, postId⟩ := (likeQ_iff userId postId x).mp hqx
      rcases List.mem_append.mp hx with h1 | h2
      · exact hnq1 x h1 hqx
      · exact hnotl2 (by rw [hbeq, ← hxeq]; exact h2)
    have e1 := like_delete_eq db postId userId post l0 hpost hlike
    have hfind2 : ((db.posts.map (fun p =>
        if p.id == postId then { p with likes_count := p.likes_count - 1 } else p)).find?
        (fun p => p.id == postId))
        = some { post with likes_count := post.likes_count - 1 } := by
      rw [find?_map_pred _ _ hpredDec, hpost]
      simp only [Option.map]
      rw [hpid]
      simp
    have e2 := like_insert_eq { db with
        likes := db.likes.eraseP (fun l => l.user_id == userId && l.post_id == postId),
        posts := db.posts.map (fun p =>
          if p.id == postId then { p with likes_count := p.likes_count - 1 } else p) }
      postId userId { post with likes_count := post.likes_count - 1 } hfind2 hnone2
    refine ⟨_, _, _, _, e1, e2, ?_, ?_⟩
    · show ((db.posts.map _).map _) = db.posts
      apply map_map_cancel
      intro a _
      by_cases hc : (a.id == postId) = true
      · simp only [hc, if_true]
        cases a
        simp only [Post.mk.injEq, and_true, true_and]
        omega
      · simp only [hc, Bool.false_eq_true, if_false]
    · intro u p
      unfold likeExists
      have hmem : ∀ x : LikeRow,
          (x ∈ ((db.likes.eraseP
              (fun l => l.user_id == userId && l.post_id == postId)) ++
            [(⟨userId, postId⟩ : LikeRow)])) ↔ x ∈ db.likes := by
        intro x
        rw [herase, hsplit, hbeq]
        simp only [List.mem_append, List.mem_cons, List.mem_singleton]
        tauto
      constructor
      · rintro ⟨l, hl, hprop⟩
        exact ⟨l, (hmem l).mp hl, hprop⟩
      · rintro ⟨l, hl, hprop⟩
        exact ⟨l, (hmem l).mpr hl, hprop⟩

theorem like_involution_witness :
    ∃ db1 r1 db2 r2,
      PostModel.like dbOnePost 1 7 = .ok (db1, r1) ∧
      PostModel.like db1 1 7 = .ok (db2, r2) ∧
      db2.posts = dbOnePost.posts ∧
      (∀ u p, likeExists db2 u p ↔ likeExists dbOnePost u p) :=
  like_involution dbOnePost 1 7 (by simp [dbOnePost]) post1 rfl

/-- Two booleans are equal when their truth conditions coincide. -/
theorem bool_eq_of_iff {a b : Bool} (h : a = true ↔ b = true) : a = b := by
  cases a <;> cases b <;> simp_all

/-- Edge existence is decidable (it is a bounded search of the follows
table), so filters can be stated over it. -/
instance followEdgeDecidable (db : DB) (a b : Nat) : Decidable (followEdge db a b) :=
  decidable_of_iff (∃ f ∈ db.follows, f.follower_id = a ∧ f.following_id = b) Iff.rfl

/-- The author test used by `getTimeline` (`user_id IN followingIds`, with
the user's own id pushed onto the list): an author qualifies iff it is the
user or one of the user's followees. -/
theorem timeline_contains_iff (db : DB) (u x : Nat) :
    ((((db.follows.filter (fun f => f.follower_id == u)).map
      (fun f => f.following_id)) ++ [u]).contains x) = true ↔
    (x = u ∨ followEdge db u x) := by
  constructor
  · intro h
    have hmem : x ∈ ((db.follows.filter (fun f => f.follower_id == u)).map
        (fun f => f.following_id)) ++ [u] := by
      simpa [List.contains] using h
    rcases List.mem_append.mp hmem with h1 | h2
    · obtain ⟨f, hf, hfe⟩ := List.mem_map.mp h1
      have hff := List.mem_filter.mp hf
      exact Or.inr ⟨f, hff.1, by simpa using hff.2, hfe⟩
    · exact Or.inl (by simpa using h2)
  · intro h
    have hmem : x ∈ ((db.follows.filter (fun f => f.follower_id == u)).map
        (fun f => f.following_id)) ++ [u] := by
      rcases h with h | ⟨f, hf, h1, h2⟩
      · exact List.mem_append.mpr (Or.inr (by simp [h]))
      · exact List.mem_append.mpr (Or.inl (List.mem_map.mpr
          ⟨f, List.mem_filter.mpr ⟨hf, by simp [h1]⟩, h2⟩))
    simpa [List.contains] using hmem

/-- C6: timeline composition. (1) Every post returned by `getTimeline` is
authored by the user or by someone the user follows; (2) the returned
list is ordered reverse-chronologically (non-increasing `created_at`);
(3) exactness: the full window (offset 0, limit the whole table) is a
permutation of exactly the posts whose author is the user or a followee —
no qualifying post is omitted and no other post appears; (4) any
(limit, offset) window is the corresponding contiguous slice of that full
window, so pagination only windows the same exact list; (5) for a user
with zero follow edges the full window is exactly that user's own posts. -/
theorem timeline_composition (db : DB) (u limit offset : Nat) :
    (∀ p ∈ PostModel.getTimeline db u limit offset,
       p.user_id = u ∨ followEdge db u p.user_id) ∧
    List.Pairwise (fun a b : Post => b.created_at ≤ a.created_at)
      (PostModel.getTimeline db u limit offset) ∧
    (PostModel.getTimeline db u db.posts.length 0).Perm
      (db.posts.filter (fun p => decide (p.user_id = u ∨ followEdge db u p.user_id))) ∧
    PostModel.getTimeline db u limit offset
      = ((PostModel.getTimeline db u db.posts.length 0).drop offset).take limit ∧
    ((∀ f ∈ db.follows, f.follower_id ≠ u) →
       (PostModel.getTimeline db u db.posts.length 0).Perm
         (db.posts.filter (fun p => p.user_id == u)) ∧
       (∀ p ∈ PostModel.getTimeline db u db.posts.length 0, p.user_id = u)) := by
  have hlen : ((db.posts.filter (fun p =>
      (((db.follows.filter (fun f => f.follower_id == u)).map
        (fun f => f.following_id)) ++ [u]).contains p.user_id)).mergeSort
      (fun a b => b.created_at ≤ a.created_at)).length ≤ db.posts.length := by
    rw [(List.mergeSort_perm _ _).length_eq]
    exact List.length_filter_le _ _
  have hfull : PostModel.getTimeline db u db.posts.length 0
      = (db.posts.filter (fun p =>
          (((db.follows.filter (fun f => f.follower_id == u)).map
            (fun f => f.following_id)) ++ [u]).contains p.user_id)).mergeSort
          (fun a b => b.created_at ≤ a.created_at) := by
    unfold PostModel.getTimeline
    show (((db.posts.filter (fun p =>
        (((db.follows.filter (fun f => f.follower_id == u)).map
          (fun f => f.following_id)) ++ [u]).contains p.user_id)).mergeSort
        (fun a b => b.created_at ≤ a.created_at)).drop 0).take db.posts.length
      = _
    rw [List.drop_zero, List.take_of_length_le hlen]
  refine ⟨?_, ?_, ?_, ?_, ?_⟩
  · intro p hp
    unfold PostModel.getTimeline at hp
    have hsub : (PostModel.getTimeline db u limit offset).Sublist
        ((db.posts.filter (fun p =>
          (((db.follows.filter (fun f => f.follower_id == u)).map
            (fun f => f.following_id)) ++ [u]).contains p.user_id)).mergeSort
          (fun a b => b.created_at ≤ a.created_at)) :=
      (List.take_sublist _ _).trans (List.drop_sublist _ _)
    have hp2 := hsub.mem hp
    have hp3 := (List.mergeSort_perm _ _).mem_iff.mp hp2
    have hp4 := List.of_mem_filter hp3
    exact (timeline_contains_iff db u p.user_id).mp hp4
  · unfold PostModel.getTimeline
    have htrans : ∀ a b c : Post,
        (decide (b.created_at ≤ a.created_at)) = true →
        (decide (c.created_at ≤ b.created_at)) = true →
        (decide (c.created_at ≤ a.created_at)) = true := by
      intro a b c h1 h2
      simp only [decide_eq_true_eq] at h1 h2 ⊢
      omega
    have htotal : ∀ a b : Post,
        ((decide (b.created_at ≤ a.created_at)) || (decide (a.created_at ≤ b.created_at))) = true := by
      intro a b
      simp only [Bool.or_eq_true, decide_eq_true_eq]
      omega
    have hsorted := List.sorted_mergeSort htrans htotal
      (db.posts.filter (fun p =>
        (((db.follows.filter (fun f => f.follower_id == u)).map
          (fun f => f.following_id)) ++ [u]).contains p.user_id))
    have hsub : (((db.posts.filter (fun p =>
        (((db.follows.filter (fun f => f.follower_id == u)).map
          (fun f => f.following_id)) ++ [u]).contains p.user_id)).mergeSort
          (fun a b => b.created_at ≤ a.created_at)).drop offset).take limit |>.Sublist
        ((db.posts.filter (fun p =>
        (((db.follows.filter (fun f => f.follower_id == u)).map
          (fun f => f.following_id)) ++ [u]).contains p.user_id)).mergeSort
          (fun a b => b.created_at ≤ a.created_at)) :=
      (List.take_sublist _ _).trans (List.drop_sublist _ _)
    exact (List.Pairwise.sublist hsub hsorted).imp (fun h => by simpa using h)
  · rw [hfull]
    have hcongr : db.posts.filter (fun p =>
        (((db.follows.filter (fun f => f.follower_id == u)).map
          (fun f => f.following_id)) ++ [u]).contains p.user_id)
        = db.posts.filter (fun p => decide (p.user_id = u ∨ followEdge db u p.user_id)) := by
      apply List.filter_congr
      intro p _
      apply bool_eq_of_iff
      rw [decide_eq_true_eq]
      exact timeline_contains_iff db u p.user_id
    rw [hcongr]
    exact List.mergeSort_perm _ _
  · rw [hfull]
    rfl
  · intro hno
    have hids : (db.follows.filter (fun f => f.follower_id == u)) = [] :=
      List.filter_eq_nil_iff.mpr (fun f hf => by simpa using hno f hf)
    have hfeq : (db.posts.filter (fun p =>
        (((db.follows.filter (fun f => f.follower_id == u)).map
          (fun f => f.following_id)) ++ [u]).contains p.user_id))
        = db.posts.filter (fun p => p.user_id == u) := by
      rw [hids]
      apply List.filter_congr
      intro p _
      show (([] ++ [u] : List Nat).contains p.user_id) = (p.user_id == u)
      by_cases h : p.user_id = u
      · simp [List.contains, h]
      · simp [List.contains, h]
    have heq : PostModel.getTimeline db u db.posts.length 0
        = (db.posts.filter (fun p => p.user_id == u)).mergeSort
          (fun a b => b.created_at ≤ a.created_at) := by
      rw [hfull, hfeq]
    constructor
    · rw [heq]
      exact List.mergeSort_perm _ _
    · intro p hp
      rw [heq] at hp
      have hp2 := (List.mergeSort_perm _ _).mem_iff.mp hp
      simpa using List.of_mem_filter hp2

/-- A two-author store with no follow edges, for the timeline witness. -/
def dbTwoAuthors : DB :=
  { users := [], posts := [
      { id := 1, user_id := 1, content := "a", likes_count := 0, retweets_count := 0,
        comments_count := 0, is_retweet := false, original_post_id := none, created_at := 5 },
      { id := 2, user_id := 2, content := "b", likes_count := 0, retweets_count := 0,
        comments_count := 0, is_retweet := false, original_post_id := none, created_at := 6 },
      { id := 3, user_id := 1, content := "c", likes_count := 0, retweets_count := 0,
        comments_count := 0, is_retweet := false, original_post_id := none, created_at := 7 }],
    comments := [], likes := [], follows := [], nextUserId := 3, nextPostId := 4,
    nextCommentId := 1, now := 8 }

/-- The same store with user 1 following user 2, to exercise the general
exactness conjunct on a non-trivial follow graph. -/
def dbWithFollow : DB :=
  { dbTwoAuthors with follows := [⟨1, 2⟩] }

theorem timeline_composition_witness :
    (PostModel.getTimeline dbWithFollow 1 dbWithFollow.posts.length 0).Perm
      (dbWithFollow.posts.filter
        (fun p => decide (p.user_id = 1 ∨ followEdge dbWithFollow 1 p.user_id))) ∧
    (PostModel.getTimeline dbTwoAuthors 1 dbTwoAuthors.posts.length 0).Perm
      (dbTwoAuthors.posts.filter (fun p => p.user_id == 1)) ∧
    (∀ p ∈ PostModel.getTimeline dbTwoAuthors 1 dbTwoAuthors.posts.length 0, p.user_id = 1) :=
  ⟨(timeline_composition dbWithFollow 1 20 0).2.2.1,
   ((timeline_composition dbTwoAuthors 1 20 0).2.2.2.2
     (by intro f hf; simp [dbTwoAuthors] at hf)).1,
   ((timeline_composition dbTwoAuthors 1 20 0).2.2.2.2
     (by intro f hf; simp [dbTwoAuthors] at hf)).2⟩
